import Mathlib

/-!
Verification of the mirrored single-producer/single-consumer ring buffer in
`src/RingBuffer.hpp` (template class `RingBuffer<T>`).

Shallow embedding notes:
* `size_t` values are modelled as natural numbers reduced modulo
  `W = 2 ^ 64` (the code targets 64-bit Linux: it uses `memfd_create`);
  the C++ wrap-around `+`/`-` on `size_t` become `wadd`/`wsub`.
* The buffer state is the tuple of counter fields of the class
  (`read_pos_`, `write_pos_`, and the four cached shadow counters).
  The mapped storage itself carries no logic relevant to the counter
  claims; pointers are modelled as byte addresses `base + index * sizeofT`.
* The blocking rendezvous is modelled sequentially: during
  `cond_.wait_for` no other thread runs, so the wait predicate
  (which re-evaluates `available`/`free_to_write` with an unchanged peer
  counter) stays false and the wait times out.  The condition-variable
  notifications performed by `produce`, `consume` and `clear` are
  modelled as an explicit `Notify` event returned by those operations.
-/

namespace SoapyRB

/-- Modulus of `size_t` arithmetic on the 64-bit target: `2 ^ 64`. -/
def W : Nat := 18446744073709551616

/-- Wrap-around (`size_t`) addition. -/
def wadd (a b : Nat) : Nat := (a + b) % W

/-- Wrap-around (`size_t`) subtraction: `a - b` on unsigned machine words. -/
def wsub (a b : Nat) : Nat := (a + (W - b % W)) % W

/-- The counter state of `RingBuffer<T>`: the two atomic position counters
and the four cached shadow counters (`RingBuffer.hpp` lines 27-33).
`capacity` is the immutable `capacity_` field (element count). -/
structure RingBuffer where
  capacity : Nat
  read_pos : Nat
  write_pos : Nat
  read_pos_cached : Nat
  write_pos_cached : Nat
  available_cached : Nat
  free_cached : Nat
deriving Repr, DecidableEq

/-- Condition-variable notification performed by an operation. -/
inductive Notify where
  | one : Notify
  | all : Notify
deriving Repr, DecidableEq

/-- Result of `read_at_least` / `write_at_least` (`ssize_t` in the code):
`timedOut` models the `-1` sentinel, `ok k` the committed count `k ≥ 0`. -/
inductive RWResult where
  | timedOut : RWResult
  | ok : Nat → RWResult
deriving Repr, DecidableEq

/-- Field state right after the constructor body ran: all counters are
zero-initialised (`RingBuffer.hpp` lines 27-33, 257-258). -/
def RingBuffer.init (cap : Nat) : RingBuffer :=
  { capacity := cap, read_pos := 0, write_pos := 0, read_pos_cached := 0,
    write_pos_cached := 0, available_cached := 0, free_cached := 0 }

/-- Method `produce(elements)` (`RingBuffer.hpp` lines 136-142): wrap-around
`free_cached_ -= elements`, `write_pos_cached_ += elements`,
`write_pos_.fetch_add(elements)`, then `cond_.notify_one()`. -/
def RingBuffer.produce (s : RingBuffer) (elements : Nat) : RingBuffer × Notify :=
  ({ s with free_cached := wsub s.free_cached elements,
            write_pos_cached := wadd s.write_pos_cached elements,
            write_pos := wadd s.write_pos elements }, .one)

/-- Method `consume(elements)` (`RingBuffer.hpp` lines 146-152): wrap-around
`available_cached_ -= elements`, `read_pos_cached_ += elements`,
`read_pos_.fetch_add(elements)`, then `cond_.notify_one()`. -/
def RingBuffer.consume (s : RingBuffer) (elements : Nat) : RingBuffer × Notify :=
  ({ s with available_cached := wsub s.available_cached elements,
            read_pos_cached := wadd s.read_pos_cached elements,
            read_pos := wadd s.read_pos elements }, .one)

/-- Method `available(required)` (`RingBuffer.hpp` lines 155-161).  The C++
default argument is `required = 0`; calls with the default are modelled
by passing `0` explicitly.  Returns the value together with the updated
state (the cache may be refreshed from the peer counter `write_pos_`). -/
def RingBuffer.available (s : RingBuffer) (required : Nat) : Nat × RingBuffer :=
  if s.available_cached < required then
    let a := wsub s.write_pos s.read_pos_cached
    (a, { s with available_cached := a })
  else
    (s.available_cached, s)

/-- Method `free_to_write(required)` (`RingBuffer.hpp` lines 164-170).  The C++
default argument is `required = 0`.  The refresh computes
`capacity_ - (write_pos_cached_ - read_pos_)` in `size_t` arithmetic. -/
def RingBuffer.free_to_write (s : RingBuffer) (required : Nat) : Nat × RingBuffer :=
  if s.free_cached < required then
    let f := wsub s.capacity (wsub s.write_pos_cached s.read_pos)
    (f, { s with free_cached := f })
  else
    (s.free_cached, s)

/-- Method `mask(val)` (`RingBuffer.hpp` lines 123-125): `(capacity_ - 1) & val`. -/
def RingBuffer.mask (s : RingBuffer) (val : Nat) : Nat :=
  (s.capacity - 1) &&& val

/-- Method `read_ptr()` (`RingBuffer.hpp` lines 173-175) as a byte address:
`buffer_ + mask(read_pos_cached_)`, with elements of `sizeofT` bytes. -/
def RingBuffer.read_ptr (base sizeofT : Nat) (s : RingBuffer) : Nat :=
  base + s.mask s.read_pos_cached * sizeofT

/-- Method `write_ptr()` (`RingBuffer.hpp` lines 178-180) as a byte address:
`buffer_ + mask(write_pos_cached_)`. -/
def RingBuffer.write_ptr (base sizeofT : Nat) (s : RingBuffer) : Nat :=
  base + s.mask s.write_pos_cached * sizeofT

/-- Method `clear()` (`RingBuffer.hpp` lines 183-194): zeroes both atomic
counters and both cached positions, sets `available_cached_ = 0` and
`free_cached_ = capacity_`, then `cond_.notify_all()`. -/
def RingBuffer.clear (s : RingBuffer) : RingBuffer × Notify :=
  ({ s with available_cached := 0, free_cached := s.capacity,
            read_pos_cached := 0, write_pos_cached := 0,
            read_pos := 0, write_pos := 0 }, .all)

/-- Method `read_at_least(elements, timeout, callback)` (`RingBuffer.hpp` lines
196-225), sequential semantics.  The callback receives the masked element
index of `read_ptr()` and the offered available count, and returns the
count it consumed.  If the first availability check fails, no producer
runs during `cond_.wait_for` in this single-thread-at-a-time model, so
the wait predicate (which re-evaluates `available(elements)` against an
unchanged `write_pos_`, idempotently) stays false and the call returns
the `-1` timeout sentinel. -/
def RingBuffer.read_at_least (s : RingBuffer) (elements : Nat)
    (callback : Nat → Nat → Nat) : RWResult × RingBuffer :=
  let avail := (s.available elements).fst
  let s1 := (s.available elements).snd
  if elements ≤ avail then
    let consumed := callback (s1.mask s1.read_pos_cached) avail
    (.ok consumed, (s1.consume consumed).fst)
  else
    (.timedOut, s1)

/-- Method `write_at_least(elements, timeout, callback)` (`RingBuffer.hpp` lines
227-255), sequential semantics, symmetric to `read_at_least`. -/
def RingBuffer.write_at_least (s : RingBuffer) (elements : Nat)
    (callback : Nat → Nat → Nat) : RWResult × RingBuffer :=
  let free := (s.free_to_write elements).fst
  let s1 := (s.free_to_write elements).snd
  if elements ≤ free then
    let produced := callback (s1.mask s1.write_pos_cached) free
    (.ok produced, (s1.produce produced).fst)
  else
    (.timedOut, s1)

/-- Helper `is_power_of_two(val)` (`RingBuffer.hpp` lines 48-50):
`(val != 0) && ((val & (val - 1)) == 0)`. -/
def is_power_of_two (val : Nat) : Bool :=
  (val != 0) && ((val &&& (val - 1)) == 0)

/-- The size validation of `map_mirror(size)` (`RingBuffer.hpp` lines
53-66): throws when `size < pagesize` or `size` is not a power of two.
The subsequent syscalls (`memfd_create`, `ftruncate`, `mmap`) are outside
the model; they can only fail construction as well, never let an invalid
size through, so the model captures exactly which sizes pass validation. -/
def map_mirror (pagesize size : Nat) : Except String Unit :=
  if size < pagesize then
    .error "Capacity must be at least pagesize"
  else if !(is_power_of_two size) then
    .error "Capacity must be a power of two"
  else
    .ok ()

/-- The constructor `RingBuffer(capacity)` (`RingBuffer.hpp` lines
257-258): runs `map_mirror(capacity * sizeof(T))`, then initialises the
counter fields. -/
def mkRingBuffer (pagesize sizeofT capacity : Nat) : Except String RingBuffer :=
  match map_mirror pagesize (capacity * sizeofT) with
  | .error e => .error e
  | .ok _ => .ok (RingBuffer.init capacity)

/-- Single-side operations on the buffer: a producer commit, a consumer
commit, an availability query by the consumer, a free-space query by the
producer, or a `clear()`. -/
inductive Op where
  | produce : Nat → Op
  | consume : Nat → Op
  | availQ : Nat → Op
  | freeQ : Nat → Op
  | clearOp : Op
deriving Repr, DecidableEq

/-- State after one operation. -/
def RingBuffer.execOp (s : RingBuffer) : Op → RingBuffer
  | .produce n => (s.produce n).fst
  | .consume n => (s.consume n).fst
  | .availQ r => (s.available r).snd
  | .freeQ r => (s.free_to_write r).snd
  | .clearOp => s.clear.fst

/-- An operation respects the offered counts when a commit does not
exceed the count the buffer last offered to that side (the cached
counter, which is exactly what `available`/`free_to_write` return to the
caller).  Queries and `clear()` are always permitted. -/
def RingBuffer.validOp (s : RingBuffer) : Op → Bool
  | .produce n => decide (n ≤ s.free_cached)
  | .consume n => decide (n ≤ s.available_cached)
  | .availQ _ => true
  | .freeQ _ => true
  | .clearOp => true

/-- State after a sequence of operations. -/
def RingBuffer.execTrace (s : RingBuffer) : List Op → RingBuffer
  | [] => s
  | op :: ops => (s.execOp op).execTrace ops

/-- A trace is valid from `s` when every operation respects the counts
offered at the state where it runs. -/
def RingBuffer.validTrace (s : RingBuffer) : List Op → Bool
  | [] => true
  | op :: ops => s.validOp op && (s.execOp op).validTrace ops

/-- Ghost tally `(produced, consumed)`: total elements produced and
consumed since the most recent `clear()` (or since construction). -/
def tallyOp (pc : Nat × Nat) : Op → Nat × Nat
  | .produce n => (pc.1 + n, pc.2)
  | .consume n => (pc.1, pc.2 + n)
  | .availQ _ => pc
  | .freeQ _ => pc
  | .clearOp => (0, 0)

/-- Ghost tally along a trace. -/
def tallyTrace (pc : Nat × Nat) : List Op → Nat × Nat
  | [] => pc
  | op :: ops => tallyTrace (tallyOp pc op) ops

/-! ## Wrap-around arithmetic lemmas -/

theorem wsub_exact {a b : Nat} (hb : b ≤ a) (ha : a < W) : wsub a b = a - b := by
  unfold wsub W at *
  omega

theorem wadd_mod (a n : Nat) : wadd (a % W) n = (a + n) % W := by
  unfold wadd W
  omega

theorem wsub_mod_mod {p c : Nat} (hc : c ≤ p) (h : p - c < W) :
    wsub (p % W) (c % W) = p - c := by
  unfold wsub W at *
  omega

theorem wsub_self_zero (a : Nat) (ha : a < W) : wsub a a = 0 := by
  unfold wsub W at *
  omega

/-! ## The sequential reachability invariant

`p` and `c` are the ghost totals of elements produced and consumed since
the last `clear()`.  In the sequential model each side's cached position
equals its own atomic counter, and the cached availability counts never
exceed the true ones. -/

structure Inv (s : RingBuffer) (p c : Nat) : Prop where
  hcp : c ≤ p
  hpc : p ≤ c + s.capacity
  hr : s.read_pos = c % W
  hw : s.write_pos = p % W
  hrc : s.read_pos_cached = s.read_pos
  hwc : s.write_pos_cached = s.write_pos
  ha : s.available_cached ≤ p - c
  hf : s.free_cached ≤ s.capacity - (p - c)

theorem inv_init (cap : Nat) : Inv (RingBuffer.init cap) 0 0 := by
  constructor <;> simp [RingBuffer.init]

theorem execOp_capacity (s : RingBuffer) (op : Op) :
    (s.execOp op).capacity = s.capacity := by
  cases op <;>
    simp only [RingBuffer.execOp, RingBuffer.produce, RingBuffer.consume,
      RingBuffer.available, RingBuffer.free_to_write, RingBuffer.clear] <;>
    split <;> rfl

theorem execTrace_capacity (s : RingBuffer) (ops : List Op) :
    (s.execTrace ops).capacity = s.capacity := by
  induction ops generalizing s with
  | nil => rfl
  | cons op ops ih =>
      simp only [RingBuffer.execTrace]
      rw [ih, execOp_capacity]

theorem inv_execOp {s : RingBuffer} {p c : Nat} (op : Op)
    (hW : s.capacity < W) (h : Inv s p c) (hv : s.validOp op = true) :
    Inv (s.execOp op) (tallyOp (p, c) op).1 (tallyOp (p, c) op).2 := by
  obtain ⟨hcp, hpc, hr, hw, hrc, hwc, ha, hf⟩ := h
  cases op with
  | produce n =>
      simp only [RingBuffer.validOp, decide_eq_true_eq] at hv
      have hfW : s.free_cached < W := by omega
      refine ⟨?_, ?_, ?_, ?_, ?_, ?_, ?_, ?_⟩ <;>
        simp only [RingBuffer.execOp, RingBuffer.produce, tallyOp,
          wsub_exact hv hfW, hwc, hw, hrc, hr, wadd_mod]
      · omega
      · omega
      · omega
      · omega
  | consume n =>
      simp only [RingBuffer.validOp, decide_eq_true_eq] at hv
      have haW : s.available_cached < W := by omega
      refine ⟨?_, ?_, ?_, ?_, ?_, ?_, ?_, ?_⟩ <;>
        simp only [RingBuffer.execOp, RingBuffer.consume, tallyOp,
          wsub_exact hv haW, hrc, hr, hwc, hw, wadd_mod]
      · omega
      · omega
      · omega
      · omega
  | availQ r =>
      simp only [RingBuffer.execOp, RingBuffer.available, tallyOp]
      split
      · have : wsub s.write_pos s.read_pos_cached = p - c := by
          rw [hw, hrc, hr]
          exact wsub_mod_mod hcp (by omega)
        exact ⟨hcp, hpc, hr, hw, hrc, hwc, by simp [this], hf⟩
      · exact ⟨hcp, hpc, hr, hw, hrc, hwc, ha, hf⟩
  | freeQ r =>
      simp only [RingBuffer.execOp, RingBuffer.free_to_write, tallyOp]
      split
      · have h1 : wsub s.write_pos_cached s.read_pos = p - c := by
          rw [hwc, hw, hr]
          exact wsub_mod_mod hcp (by omega)
        have h2 : wsub s.capacity (p - c) = s.capacity - (p - c) :=
          wsub_exact (by omega) hW
        exact ⟨hcp, hpc, hr, hw, hrc, hwc, ha, by simp [h1, h2]⟩
      · exact ⟨hcp, hpc, hr, hw, hrc, hwc, ha, hf⟩
  | clearOp =>
      refine ⟨?_, ?_, ?_, ?_, ?_, ?_, ?_, ?_⟩ <;>
        simp [RingBuffer.execOp, RingBuffer.clear, tallyOp]

theorem inv_execTrace {s : RingBuffer} {p c : Nat} (ops : List Op)
    (hW : s.capacity < W) (h : Inv s p c) (hv : s.validTrace ops = true) :
    Inv (s.execTrace ops) (tallyTrace (p, c) ops).1 (tallyTrace (p, c) ops).2 := by
  induction ops generalizing s p c with
  | nil => exact h
  | cons op ops ih =>
      simp only [RingBuffer.validTrace, Bool.and_eq_true] at hv
      simp only [RingBuffer.execTrace, tallyTrace]
      have hW' : (s.execOp op).capacity < W := by rw [execOp_capacity]; exact hW
      exact ih hW' (inv_execOp op hW h hv.1) hv.2

/-! ## Helper lemmas about the queries -/

theorem available_snd_read_pos (s : RingBuffer) (r : Nat) :
    (s.available r).snd.read_pos = s.read_pos := by
  unfold RingBuffer.available
  split <;> rfl

theorem available_snd_write_pos (s : RingBuffer) (r : Nat) :
    (s.available r).snd.write_pos = s.write_pos := by
  unfold RingBuffer.available
  split <;> rfl

theorem available_snd_read_pos_cached (s : RingBuffer) (r : Nat) :
    (s.available r).snd.read_pos_cached = s.read_pos_cached := by
  unfold RingBuffer.available
  split <;> rfl

theorem available_snd_capacity (s : RingBuffer) (r : Nat) :
    (s.available r).snd.capacity = s.capacity := by
  unfold RingBuffer.available
  split <;> rfl

theorem free_snd_read_pos (s : RingBuffer) (r : Nat) :
    (s.free_to_write r).snd.read_pos = s.read_pos := by
  unfold RingBuffer.free_to_write
  split <;> rfl

theorem free_snd_write_pos (s : RingBuffer) (r : Nat) :
    (s.free_to_write r).snd.write_pos = s.write_pos := by
  unfold RingBuffer.free_to_write
  split <;> rfl

theorem free_snd_write_pos_cached (s : RingBuffer) (r : Nat) :
    (s.free_to_write r).snd.write_pos_cached = s.write_pos_cached := by
  unfold RingBuffer.free_to_write
  split <;> rfl

theorem free_snd_capacity (s : RingBuffer) (r : Nat) :
    (s.free_to_write r).snd.capacity = s.capacity := by
  unfold RingBuffer.free_to_write
  split <;> rfl

/-- The count `available` returns is exactly the cache stored in the
state it returns. -/
theorem available_fst_eq_cached (s : RingBuffer) (r : Nat) :
    (s.available r).fst = (s.available r).snd.available_cached := by
  unfold RingBuffer.available
  split <;> rfl

/-- The count `free_to_write` returns is exactly the cache stored in the
state it returns. -/
theorem free_fst_eq_cached (s : RingBuffer) (r : Nat) :
    (s.free_to_write r).fst = (s.free_to_write r).snd.free_cached := by
  unfold RingBuffer.free_to_write
  split <;> rfl

/-- When `required` is at least the true occupancy, `available(required)`
returns the true occupancy `p - c` (either the cache is refreshed to it,
or the cache already equals it). -/
theorem available_fst_forced {s : RingBuffer} {p c : Nat} (r : Nat)
    (hW : s.capacity < W) (h : Inv s p c) (hr : p - c ≤ r) :
    (s.available r).fst = p - c := by
  obtain ⟨hcp, hpc, hrp, hwp, hrc, hwc, ha, hf⟩ := h
  unfold RingBuffer.available
  split
  · rw [hwp, hrc, hrp]
    exact wsub_mod_mod hcp (by omega)
  · omega

/-- When `required` is at least the true free space, `free_to_write(required)`
returns the true free space `capacity - (p - c)`. -/
theorem free_fst_forced {s : RingBuffer} {p c : Nat} (r : Nat)
    (hW : s.capacity < W) (h : Inv s p c) (hr : s.capacity - (p - c) ≤ r) :
    (s.free_to_write r).fst = s.capacity - (p - c) := by
  obtain ⟨hcp, hpc, hrp, hwp, hrc, hwc, ha, hf⟩ := h
  unfold RingBuffer.free_to_write
  split
  · rw [hwc, hwp, hrp, wsub_mod_mod hcp (by omega)]
    exact wsub_exact (by omega) hW
  · omega

/-- In any invariant state, `free_to_write` never returns more than the
capacity. -/
theorem free_fst_le {s : RingBuffer} {p c : Nat} (r : Nat)
    (hW : s.capacity < W) (h : Inv s p c) :
    (s.free_to_write r).fst ≤ s.capacity := by
  obtain ⟨hcp, hpc, hrp, hwp, hrc, hwc, ha, hf⟩ := h
  unfold RingBuffer.free_to_write
  split
  · rw [hwc, hwp, hrp, wsub_mod_mod hcp (by omega), wsub_exact (by omega) hW]
    show s.capacity - (p - c) ≤ s.capacity
    omega
  · omega

/-- In any invariant state the raw wrap-around difference of the two
position counters is the true occupancy `p - c`. -/
theorem inv_occupancy {s : RingBuffer} {p c : Nat}
    (hW : s.capacity < W) (h : Inv s p c) :
    wsub s.write_pos s.read_pos = p - c := by
  obtain ⟨hcp, hpc, hrp, hwp, hrc, hwc, ha, hf⟩ := h
  rw [hwp, hrp]
  exact wsub_mod_mod hcp (by omega)

/-- A `read_at_least` call whose callback commits at most the offered
count leaves the buffer in an invariant state (with the consumed tally
possibly advanced). -/
theorem inv_read_at_least {s : RingBuffer} {p c : Nat} (n : Nat)
    (cb : Nat → Nat → Nat) (hW : s.capacity < W) (h : Inv s p c)
    (hcb : ∀ i a, cb i a ≤ a) :
    ∃ c', Inv (s.read_at_least n cb).snd p c' := by
  have h1 : Inv (s.available n).snd p c := inv_execOp (.availQ n) hW h rfl
  have hW1 : (s.available n).snd.capacity < W := by
    rw [available_snd_capacity]; exact hW
  unfold RingBuffer.read_at_least
  simp only
  split
  · refine ⟨c + cb ((s.available n).snd.mask (s.available n).snd.read_pos_cached)
      (s.available n).fst, ?_⟩
    have hk : cb ((s.available n).snd.mask (s.available n).snd.read_pos_cached)
        (s.available n).fst ≤ (s.available n).snd.available_cached := by
      rw [← available_fst_eq_cached]
      exact hcb _ _
    exact inv_execOp (.consume _) hW1 h1 (by simpa [RingBuffer.validOp])
  · exact ⟨c, h1⟩

/-- A `write_at_least` call whose callback commits at most the offered
count leaves the buffer in an invariant state (with the produced tally
possibly advanced). -/
theorem inv_write_at_least {s : RingBuffer} {p c : Nat} (n : Nat)
    (cb : Nat → Nat → Nat) (hW : s.capacity < W) (h : Inv s p c)
    (hcb : ∀ i a, cb i a ≤ a) :
    ∃ p', Inv (s.write_at_least n cb).snd p' c := by
  have h1 : Inv (s.free_to_write n).snd p c := inv_execOp (.freeQ n) hW h rfl
  have hW1 : (s.free_to_write n).snd.capacity < W := by
    rw [free_snd_capacity]; exact hW
  unfold RingBuffer.write_at_least
  simp only
  split
  · refine ⟨p + cb ((s.free_to_write n).snd.mask (s.free_to_write n).snd.write_pos_cached)
      (s.free_to_write n).fst, ?_⟩
    have hk : cb ((s.free_to_write n).snd.mask (s.free_to_write n).snd.write_pos_cached)
        (s.free_to_write n).fst ≤ (s.free_to_write n).snd.free_cached := by
      rw [← free_fst_eq_cached]
      exact hcb _ _
    exact inv_execOp (.produce _) hW1 h1 (by simpa [RingBuffer.validOp])
  · exact ⟨p, h1⟩

/-- Reachable state: the buffer after a trace of operations starting
from a freshly constructed buffer of the given capacity. -/
def reach (cap : Nat) (ops : List Op) : RingBuffer :=
  (RingBuffer.init cap).execTrace ops

theorem inv_reach (cap : Nat) (ops : List Op) (hW : cap < W)
    (hv : (RingBuffer.init cap).validTrace ops = true) :
    Inv (reach cap ops) (tallyTrace (0, 0) ops).1 (tallyTrace (0, 0) ops).2 :=
  inv_execTrace ops hW (inv_init cap) hv

theorem reach_capacity (cap : Nat) (ops : List Op) :
    (reach cap ops).capacity = cap :=
  execTrace_capacity (RingBuffer.init cap) ops

/-! ## Power-of-two characterisation of the constructor check -/

theorem is_power_of_two_spec {n : Nat} (h : is_power_of_two n = true) :
    ∃ m, n = 2 ^ m := by
  simp only [is_power_of_two, Bool.and_eq_true, bne_iff_ne, ne_eq, beq_iff_eq] at h
  obtain ⟨hn0, hand⟩ := h
  refine ⟨Nat.log2 n, ?_⟩
  by_contra hne
  have hlo : 2 ^ Nat.log2 n ≤ n := Nat.log2_self_le hn0
  have hhi : n < 2 ^ (Nat.log2 n + 1) := Nat.lt_log2_self
  have hlt : 2 ^ Nat.log2 n < n := lt_of_le_of_ne hlo (fun he => hne he.symm)
  have hbn : Nat.testBit n (Nat.log2 n) = true := by
    rw [Nat.testBit_to_div_mod]
    have : n / 2 ^ Nat.log2 n = 1 :=
      Nat.div_eq_of_lt_le (by omega) (by rw [pow_succ] at hhi; omega)
    simp [this]
  have hbn1 : Nat.testBit (n - 1) (Nat.log2 n) = true := by
    rw [Nat.testBit_to_div_mod]
    have : (n - 1) / 2 ^ Nat.log2 n = 1 :=
      Nat.div_eq_of_lt_le (by omega) (by rw [pow_succ] at hhi; omega)
    simp [this]
  have : Nat.testBit (n &&& (n - 1)) (Nat.log2 n) = true := by
    rw [Nat.testBit_land, hbn, hbn1]
    rfl
  rw [hand, Nat.zero_testBit] at this
  exact Bool.false_ne_true this

/-! ## Claim C1: conservation of available + free_to_write -/

/-- C1 counterexample: with the default `required = 0` argument neither
query ever refreshes its cache (`available_cached_ < 0` is false for
`size_t`), so after the valid sequence `free_to_write(1); produce(1)` on
a fresh buffer of capacity 4 the sum `available() + free_to_write()` is
`0 + 3 = 3`, not the capacity 4. -/
theorem conservation_default_required_counterexample :
    (RingBuffer.init 4).validTrace [Op.freeQ 1, Op.produce 1] = true ∧
    ¬(((reach 4 [Op.freeQ 1, Op.produce 1]).available 0).fst
        + ((reach 4 [Op.freeQ 1, Op.produce 1]).free_to_write 0).fst = 4) := by
  constructor
  · decide
  · decide

/-- C1 (amended): for every capacity `cap < 2 ^ 64` and every valid
sequence of calls, `available(required) + free_to_write(required)` equals
the capacity when each query is passed `required = capacity` (which
forces a refresh of any stale cache) instead of the default `0`; the
second query is made on the state left by the first. -/
theorem conservation_with_refresh (cap : Nat) (ops : List Op)
    (hW : cap < W) (hv : (RingBuffer.init cap).validTrace ops = true) :
    ((reach cap ops).available cap).fst
      + (((reach cap ops).available cap).snd.free_to_write cap).fst = cap := by
  have h := inv_reach cap ops hW hv
  have hcap := reach_capacity cap ops
  have hW' : (reach cap ops).capacity < W := by rw [hcap]; exact hW
  have hpc := h.hpc
  have hA : ((reach cap ops).available cap).fst
      = (tallyTrace (0, 0) ops).1 - (tallyTrace (0, 0) ops).2 :=
    available_fst_forced cap hW' h (by omega)
  have h1 : Inv ((reach cap ops).available cap).snd
      (tallyTrace (0, 0) ops).1 (tallyTrace (0, 0) ops).2 :=
    inv_execOp (.availQ cap) hW' h rfl
  have hcap1 : ((reach cap ops).available cap).snd.capacity = cap := by
    rw [available_snd_capacity, hcap]
  have hW1 : ((reach cap ops).available cap).snd.capacity < W := by
    rw [hcap1]; exact hW
  have hF : (((reach cap ops).available cap).snd.free_to_write cap).fst
      = ((reach cap ops).available cap).snd.capacity
        - ((tallyTrace (0, 0) ops).1 - (tallyTrace (0, 0) ops).2) :=
    free_fst_forced cap hW1 h1 (by omega)
  rw [hA, hF, hcap1]
  omega

/-- C1 witness: the amended conservation law evaluated on a concrete
valid trace. -/
theorem conservation_with_refresh_witness :
    ((reach 4 [Op.freeQ 1, Op.produce 1]).available 4).fst
      + (((reach 4 [Op.freeQ 1, Op.produce 1]).available 4).snd.free_to_write 4).fst
      = 4 :=
  conservation_with_refresh 4 [Op.freeQ 1, Op.produce 1] (by decide) (by decide)

/-! ## Claim C2: availability arithmetic -/

/-- C2 counterexample: in the reachable state after
`free_to_write(1); produce(1)` on a fresh buffer of capacity 4,
`available(0)` returns the stale cached count 0, which is not
`write_pos - read_pos = 1`; so "the value returned equals
write_pos - read_pos" does not hold for every state and every
`min_required`. -/
theorem availability_arithmetic_counterexample :
    (RingBuffer.init 4).validTrace [Op.freeQ 1, Op.produce 1] = true ∧
    ¬(((reach 4 [Op.freeQ 1, Op.produce 1]).available 0).fst
        = wsub (reach 4 [Op.freeQ 1, Op.produce 1]).write_pos
            (reach 4 [Op.freeQ 1, Op.produce 1]).read_pos) := by
  constructor
  · decide
  · decide

/-- C2 (amended): in every reachable state, `available(min_required)`
returns the cached count unchanged (without touching the state) if the
cache already satisfies `min_required`, and otherwise refreshes it by
loading the peer counter, in which case the value returned equals
`write_pos - read_pos` (wrapping unsigned subtraction); symmetrically,
`free_to_write(min_required)` returns the cached count if it satisfies
`min_required` and otherwise `capacity - (write_pos - read_pos)`. -/
theorem availability_arithmetic_refresh (cap : Nat) (ops : List Op) (r : Nat)
    (hW : cap < W) (hv : (RingBuffer.init cap).validTrace ops = true) :
    ((reach cap ops).available_cached < r →
      ((reach cap ops).available r).fst
        = wsub (reach cap ops).write_pos (reach cap ops).read_pos) ∧
    (r ≤ (reach cap ops).available_cached →
      (reach cap ops).available r = ((reach cap ops).available_cached, reach cap ops)) ∧
    ((reach cap ops).free_cached < r →
      ((reach cap ops).free_to_write r).fst
        = wsub (reach cap ops).capacity
            (wsub (reach cap ops).write_pos (reach cap ops).read_pos)) ∧
    (r ≤ (reach cap ops).free_cached →
      (reach cap ops).free_to_write r
        = ((reach cap ops).free_cached, reach cap ops)) := by
  have h := inv_reach cap ops hW hv
  refine ⟨?_, ?_, ?_, ?_⟩
  · intro h1
    unfold RingBuffer.available
    rw [if_pos h1]
    show wsub (reach cap ops).write_pos (reach cap ops).read_pos_cached = _
    rw [h.hrc]
  · intro h1
    unfold RingBuffer.available
    rw [if_neg (by omega)]
  · intro h1
    unfold RingBuffer.free_to_write
    rw [if_pos h1]
    show wsub (reach cap ops).capacity
        (wsub (reach cap ops).write_pos_cached (reach cap ops).read_pos) = _
    rw [h.hwc]
  · intro h1
    unfold RingBuffer.free_to_write
    rw [if_neg (by omega)]

/-- C2 witness: the amended availability arithmetic evaluated on a
concrete reachable state. -/
theorem availability_arithmetic_refresh_witness :
    ((reach 4 [Op.freeQ 1, Op.produce 1]).available_cached < 1 →
      ((reach 4 [Op.freeQ 1, Op.produce 1]).available 1).fst
        = wsub (reach 4 [Op.freeQ 1, Op.produce 1]).write_pos
            (reach 4 [Op.freeQ 1, Op.produce 1]).read_pos) ∧
    (1 ≤ (reach 4 [Op.freeQ 1, Op.produce 1]).available_cached →
      (reach 4 [Op.freeQ 1, Op.produce 1]).available 1
        = ((reach 4 [Op.freeQ 1, Op.produce 1]).available_cached,
            reach 4 [Op.freeQ 1, Op.produce 1])) ∧
    ((reach 4 [Op.freeQ 1, Op.produce 1]).free_cached < 1 →
      ((reach 4 [Op.freeQ 1, Op.produce 1]).free_to_write 1).fst
        = wsub (reach 4 [Op.freeQ 1, Op.produce 1]).capacity
            (wsub (reach 4 [Op.freeQ 1, Op.produce 1]).write_pos
              (reach 4 [Op.freeQ 1, Op.produce 1]).read_pos)) ∧
    (1 ≤ (reach 4 [Op.freeQ 1, Op.produce 1]).free_cached →
      (reach 4 [Op.freeQ 1, Op.produce 1]).free_to_write 1
        = ((reach 4 [Op.freeQ 1, Op.produce 1]).free_cached,
            reach 4 [Op.freeQ 1, Op.produce 1])) :=
  availability_arithmetic_refresh 4 [Op.freeQ 1, Op.produce 1] 1
    (by decide) (by decide)

/-! ## Claim C10: fresh-buffer free_to_write edge case -/

/-- C10: immediately after construction, `free_to_write()` with the
default `required = 0` returns `0` (the zero-initialised cache is never
refreshed because `free_cached_ < 0` is false on `size_t`), not the
capacity; `free_to_write(k)` for any `0 < k ≤ capacity` refreshes and
returns the full capacity, as does `free_to_write()` after a
`clear()`. -/
theorem fresh_buffer_free_to_write (cap k : Nat) (h0 : 0 < k) (hk : k ≤ cap)
    (hW : cap < W) (hcap : 0 < cap) :
    ((RingBuffer.init cap).free_to_write 0).fst = 0 ∧
    ((RingBuffer.init cap).free_to_write 0).fst ≠ cap ∧
    ((RingBuffer.init cap).free_to_write k).fst = cap ∧
    ((RingBuffer.init cap).clear.fst.free_to_write 0).fst = cap := by
  have e1 : wsub 0 0 = 0 := wsub_self_zero 0 (by unfold W; omega)
  have e2 : wsub cap 0 = cap := by
    rw [wsub_exact (Nat.zero_le cap) hW]
    omega
  refine ⟨?_, ?_, ?_, ?_⟩
  · simp [RingBuffer.init, RingBuffer.free_to_write]
  · simp [RingBuffer.init, RingBuffer.free_to_write]
    omega
  · simp [RingBuffer.init, RingBuffer.free_to_write, h0, e1, e2]
  · simp [RingBuffer.clear, RingBuffer.free_to_write, RingBuffer.init]

/-- C10 witness: evaluated at capacity 4096 and `k = 1`. -/
theorem fresh_buffer_free_to_write_witness :
    ((RingBuffer.init 4096).free_to_write 0).fst = 0 ∧
    ((RingBuffer.init 4096).free_to_write 0).fst ≠ 4096 ∧
    ((RingBuffer.init 4096).free_to_write 1).fst = 4096 ∧
    ((RingBuffer.init 4096).clear.fst.free_to_write 0).fst = 4096 :=
  fresh_buffer_free_to_write 4096 1 (by decide) (by decide) (by decide) (by decide)

/-! ## Claim C3: timeout atomicity -/

/-- C3: a `read_at_least` / `write_at_least` call whose wait times out
returns the distinguished timed-out result (the `-1` sentinel, not an
exception), leaves both position counters unchanged (no commit), and its
result and final state do not depend on the callback — the callback is
never invoked; the buffer remains usable, so a subsequent call may
retry. -/
theorem timeout_atomicity (s : RingBuffer) (n : Nat)
    (cb cb' : Nat → Nat → Nat) :
    ((s.available n).fst < n →
      (s.read_at_least n cb).fst = RWResult.timedOut ∧
      (s.read_at_least n cb).snd.read_pos = s.read_pos ∧
      (s.read_at_least n cb).snd.write_pos = s.write_pos ∧
      s.read_at_least n cb = s.read_at_least n cb') ∧
    ((s.free_to_write n).fst < n →
      (s.write_at_least n cb).fst = RWResult.timedOut ∧
      (s.write_at_least n cb).snd.read_pos = s.read_pos ∧
      (s.write_at_least n cb).snd.write_pos = s.write_pos ∧
      s.write_at_least n cb = s.write_at_least n cb') := by
  refine ⟨fun h => ?_, fun h => ?_⟩
  · have hc : ¬(n ≤ (s.available n).fst) := by omega
    simp only [RingBuffer.read_at_least, if_neg hc]
    exact ⟨trivial, available_snd_read_pos s n, available_snd_write_pos s n, trivial⟩
  · have hc : ¬(n ≤ (s.free_to_write n).fst) := by omega
    simp only [RingBuffer.write_at_least, if_neg hc]
    exact ⟨trivial, free_snd_read_pos s n, free_snd_write_pos s n, trivial⟩

/-- C3 witness: a read on an empty fresh buffer and a write requesting
more than the capacity both time out. -/
theorem timeout_atomicity_witness :
    ((RingBuffer.init 4).read_at_least 1 (fun _ a => a)).fst = RWResult.timedOut ∧
    ((RingBuffer.init 4).write_at_least 5 (fun _ a => a)).fst = RWResult.timedOut :=
  ⟨((timeout_atomicity (RingBuffer.init 4) 1 (fun _ a => a) (fun _ _ => 0)).1
      (by decide)).1,
   ((timeout_atomicity (RingBuffer.init 4) 5 (fun _ a => a) (fun _ _ => 0)).2
      (by decide)).1⟩

/-! ## Claim C4: fast path -/

/-- C4: when availability already satisfies `elements`, `read_at_least`
(resp. `write_at_least`) invokes the callback immediately with the
current read (resp. write) pointer index — the caller's own cached
position, unchanged by the query, masked — and the full offered count,
which may exceed `elements`; the count the callback returns (which may
be less than offered) is committed by advancing the caller's own
position counter by exactly that count, the peer counter is untouched,
and that count is returned as the result. -/
theorem fast_path_commit (s : RingBuffer) (n : Nat) (cb : Nat → Nat → Nat) :
    (n ≤ (s.available n).fst →
      (s.read_at_least n cb).fst
        = RWResult.ok (cb ((s.available n).snd.mask (s.available n).snd.read_pos_cached)
            (s.available n).fst) ∧
      (s.available n).snd.read_pos_cached = s.read_pos_cached ∧
      (s.read_at_least n cb).snd.read_pos
        = wadd s.read_pos (cb ((s.available n).snd.mask (s.available n).snd.read_pos_cached)
            (s.available n).fst) ∧
      (s.read_at_least n cb).snd.write_pos = s.write_pos) ∧
    (n ≤ (s.free_to_write n).fst →
      (s.write_at_least n cb).fst
        = RWResult.ok (cb ((s.free_to_write n).snd.mask (s.free_to_write n).snd.write_pos_cached)
            (s.free_to_write n).fst) ∧
      (s.free_to_write n).snd.write_pos_cached = s.write_pos_cached ∧
      (s.write_at_least n cb).snd.write_pos
        = wadd s.write_pos (cb ((s.free_to_write n).snd.mask (s.free_to_write n).snd.write_pos_cached)
            (s.free_to_write n).fst) ∧
      (s.write_at_least n cb).snd.read_pos = s.read_pos) := by
  refine ⟨fun h => ?_, fun h => ?_⟩
  · simp only [RingBuffer.read_at_least, if_pos h]
    refine ⟨trivial, available_snd_read_pos_cached s n, ?_, ?_⟩
    · simp only [RingBuffer.consume, available_snd_read_pos]
    · simp only [RingBuffer.consume, available_snd_write_pos]
  · simp only [RingBuffer.write_at_least, if_pos h]
    refine ⟨trivial, free_snd_write_pos_cached s n, ?_, ?_⟩
    · simp only [RingBuffer.produce, free_snd_write_pos]
    · simp only [RingBuffer.produce, free_snd_read_pos]

/-- C4 witness: a read fast path that consumes one element fewer than
offered (2 available, 1 requested, 1 consumed) and a write fast path
that produces everything offered, both on concrete buffers. -/
theorem fast_path_commit_witness :
    ((reach 4 [Op.freeQ 2, Op.produce 2]).read_at_least 1 (fun _ a => a - 1)).fst
      = RWResult.ok ((fun _ a => a - 1)
          (((reach 4 [Op.freeQ 2, Op.produce 2]).available 1).snd.mask
            ((reach 4 [Op.freeQ 2, Op.produce 2]).available 1).snd.read_pos_cached)
          ((reach 4 [Op.freeQ 2, Op.produce 2]).available 1).fst) ∧
    ((RingBuffer.init 4).write_at_least 1 (fun _ f => f)).fst
      = RWResult.ok ((fun _ f => f)
          (((RingBuffer.init 4).free_to_write 1).snd.mask
            ((RingBuffer.init 4).free_to_write 1).snd.write_pos_cached)
          ((RingBuffer.init 4).free_to_write 1).fst) :=
  ⟨((fast_path_commit (reach 4 [Op.freeQ 2, Op.produce 2]) 1 (fun _ a => a - 1)).1
      (by decide)).1,
   ((fast_path_commit (RingBuffer.init 4) 1 (fun _ f => f)).2 (by decide)).1⟩

theorem read_at_least_snd_capacity (s : RingBuffer) (n : Nat)
    (cb : Nat → Nat → Nat) :
    (s.read_at_least n cb).snd.capacity = s.capacity := by
  simp only [RingBuffer.read_at_least]
  split
  · simp only [RingBuffer.consume, available_snd_capacity]
  · exact available_snd_capacity s n

theorem write_at_least_snd_capacity (s : RingBuffer) (n : Nat)
    (cb : Nat → Nat → Nat) :
    (s.write_at_least n cb).snd.capacity = s.capacity := by
  simp only [RingBuffer.write_at_least]
  split
  · simp only [RingBuffer.produce, free_snd_capacity]
  · exact free_snd_capacity s n

/-! ## Claim C5: no-overrun invariant -/

/-- C5: along every valid interleaving of producer and consumer
operations (each commit bounded by the count the buffer offered), the
wrap-around difference `write_pos - read_pos` equals the number of
elements produced but not yet consumed (since the last `clear()`), which
stays within `[0, capacity]`; consequently `free_to_write` never returns
more than the capacity, and a `read_at_least`/`write_at_least` whose
callback commits at most the offered count also keeps the occupancy
within `[0, capacity]`. -/
theorem no_overrun_invariant (cap : Nat) (ops : List Op)
    (hW : cap < W) (hv : (RingBuffer.init cap).validTrace ops = true) :
    wsub (reach cap ops).write_pos (reach cap ops).read_pos
        = (tallyTrace (0, 0) ops).1 - (tallyTrace (0, 0) ops).2 ∧
    (tallyTrace (0, 0) ops).2 ≤ (tallyTrace (0, 0) ops).1 ∧
    (tallyTrace (0, 0) ops).1 - (tallyTrace (0, 0) ops).2 ≤ cap ∧
    (∀ r, ((reach cap ops).free_to_write r).fst ≤ cap) ∧
    (∀ n cb, (∀ i a, cb i a ≤ a) →
      wsub ((reach cap ops).read_at_least n cb).snd.write_pos
          ((reach cap ops).read_at_least n cb).snd.read_pos ≤ cap) ∧
    (∀ n cb, (∀ i a, cb i a ≤ a) →
      wsub ((reach cap ops).write_at_least n cb).snd.write_pos
          ((reach cap ops).write_at_least n cb).snd.read_pos ≤ cap) := by
  have h := inv_reach cap ops hW hv
  have hcap := reach_capacity cap ops
  have hW' : (reach cap ops).capacity < W := by rw [hcap]; exact hW
  refine ⟨inv_occupancy hW' h, h.hcp, ?_, ?_, ?_, ?_⟩
  · have h2 := h.hpc
    rw [hcap] at h2
    omega
  · intro r
    have h2 := free_fst_le r hW' h
    rwa [hcap] at h2
  · intro n cb hcb
    obtain ⟨c', h2⟩ := inv_read_at_least n cb hW' h hcb
    have hcap2 : ((reach cap ops).read_at_least n cb).snd.capacity = cap := by
      rw [read_at_least_snd_capacity, hcap]
    have hW2 : ((reach cap ops).read_at_least n cb).snd.capacity < W := by
      rw [hcap2]; exact hW
    rw [inv_occupancy hW2 h2]
    have h3 := h2.hpc
    rw [hcap2] at h3
    omega
  · intro n cb hcb
    obtain ⟨p', h2⟩ := inv_write_at_least n cb hW' h hcb
    have hcap2 : ((reach cap ops).write_at_least n cb).snd.capacity = cap := by
      rw [write_at_least_snd_capacity, hcap]
    have hW2 : ((reach cap ops).write_at_least n cb).snd.capacity < W := by
      rw [hcap2]; exact hW
    rw [inv_occupancy hW2 h2]
    have h3 := h2.hpc
    rw [hcap2] at h3
    omega

/-- C5 witness: the no-overrun invariant evaluated on a concrete valid
trace, with the quantified parts instantiated at `required = 0`,
`elements = 1` and the identity-count callback. -/
theorem no_overrun_invariant_witness :
    wsub (reach 4 [Op.freeQ 1, Op.produce 1]).write_pos
        (reach 4 [Op.freeQ 1, Op.produce 1]).read_pos
      = (tallyTrace (0, 0) [Op.freeQ 1, Op.produce 1]).1
          - (tallyTrace (0, 0) [Op.freeQ 1, Op.produce 1]).2 ∧
    (tallyTrace (0, 0) [Op.freeQ 1, Op.produce 1]).2
      ≤ (tallyTrace (0, 0) [Op.freeQ 1, Op.produce 1]).1 ∧
    (tallyTrace (0, 0) [Op.freeQ 1, Op.produce 1]).1
        - (tallyTrace (0, 0) [Op.freeQ 1, Op.produce 1]).2 ≤ 4 ∧
    ((reach 4 [Op.freeQ 1, Op.produce 1]).free_to_write 0).fst ≤ 4 ∧
    wsub ((reach 4 [Op.freeQ 1, Op.produce 1]).read_at_least 1 (fun _ a => a)).snd.write_pos
        ((reach 4 [Op.freeQ 1, Op.produce 1]).read_at_least 1 (fun _ a => a)).snd.read_pos ≤ 4 ∧
    wsub ((reach 4 [Op.freeQ 1, Op.produce 1]).write_at_least 1 (fun _ a => a)).snd.write_pos
        ((reach 4 [Op.freeQ 1, Op.produce 1]).write_at_least 1 (fun _ a => a)).snd.read_pos ≤ 4 := by
  have h := no_overrun_invariant 4 [Op.freeQ 1, Op.produce 1] (by decide) (by decide)
  exact ⟨h.1, h.2.1, h.2.2.1, h.2.2.2.1 0,
    h.2.2.2.2.1 1 (fun _ a => a) (fun _ a => Nat.le_refl a),
    h.2.2.2.2.2 1 (fun _ a => a) (fun _ a => Nat.le_refl a)⟩

/-! ## Claim C6: pointer computation -/

/-- C6: `read_ptr()` and `write_ptr()` return the address
`base + (position & (capacity - 1)) * sizeof(T)` where the position is
the calling side's own cached counter, and for a power-of-two capacity
the masked index equals the position modulo the capacity. -/
theorem pointer_computation (base sizeofT k : Nat) (s : RingBuffer)
    (hcap : s.capacity = 2 ^ k) :
    RingBuffer.read_ptr base sizeofT s
        = base + (s.read_pos_cached &&& (s.capacity - 1)) * sizeofT ∧
    RingBuffer.write_ptr base sizeofT s
        = base + (s.write_pos_cached &&& (s.capacity - 1)) * sizeofT ∧
    s.mask s.read_pos_cached = s.read_pos_cached % s.capacity ∧
    s.mask s.write_pos_cached = s.write_pos_cached % s.capacity := by
  have hm : ∀ v, s.mask v = v % s.capacity := by
    intro v
    rw [RingBuffer.mask, Nat.land_comm, hcap, Nat.and_pow_two_sub_one_eq_mod]
  refine ⟨?_, ?_, hm _, hm _⟩
  · rw [RingBuffer.read_ptr, RingBuffer.mask, Nat.land_comm]
  · rw [RingBuffer.write_ptr, RingBuffer.mask, Nat.land_comm]

/-- C6 witness: evaluated at base 100, 8-byte elements and a capacity-4
buffer after two produced elements. -/
theorem pointer_computation_witness :
    RingBuffer.read_ptr 100 8 (reach 4 [Op.freeQ 2, Op.produce 2])
        = 100 + ((reach 4 [Op.freeQ 2, Op.produce 2]).read_pos_cached
            &&& ((reach 4 [Op.freeQ 2, Op.produce 2]).capacity - 1)) * 8 ∧
    RingBuffer.write_ptr 100 8 (reach 4 [Op.freeQ 2, Op.produce 2])
        = 100 + ((reach 4 [Op.freeQ 2, Op.produce 2]).write_pos_cached
            &&& ((reach 4 [Op.freeQ 2, Op.produce 2]).capacity - 1)) * 8 ∧
    (reach 4 [Op.freeQ 2, Op.produce 2]).mask
        (reach 4 [Op.freeQ 2, Op.produce 2]).read_pos_cached
      = (reach 4 [Op.freeQ 2, Op.produce 2]).read_pos_cached
          % (reach 4 [Op.freeQ 2, Op.produce 2]).capacity ∧
    (reach 4 [Op.freeQ 2, Op.produce 2]).mask
        (reach 4 [Op.freeQ 2, Op.produce 2]).write_pos_cached
      = (reach 4 [Op.freeQ 2, Op.produce 2]).write_pos_cached
          % (reach 4 [Op.freeQ 2, Op.produce 2]).capacity :=
  pointer_computation 100 8 2 (reach 4 [Op.freeQ 2, Op.produce 2]) (by decide)

/-! ## Claim C7: construction validation -/

/-- C7: construction fails with a configuration error when the requested
byte size `capacity * sizeof(T)` is below one page or not a power of
two; a successful construction implies the byte size is a power of two
at least one page large, hence page-aligned (the system page size being
itself a power of two). -/
theorem construction_validation (pagesize sizeofT capacity : Nat) :
    (capacity * sizeofT < pagesize ∨ is_power_of_two (capacity * sizeofT) = false →
      ∃ e, mkRingBuffer pagesize sizeofT capacity = Except.error e) ∧
    (∀ s, mkRingBuffer pagesize sizeofT capacity = Except.ok s →
      pagesize ≤ capacity * sizeofT ∧
      (∃ m, capacity * sizeofT = 2 ^ m) ∧
      (∀ j, pagesize = 2 ^ j → pagesize ∣ capacity * sizeofT)) := by
  constructor
  · intro hbad
    rcases hbad with hlt | hp2
    · exact ⟨"Capacity must be at least pagesize",
        by simp [mkRingBuffer, map_mirror, if_pos hlt]⟩
    · by_cases hlt : capacity * sizeofT < pagesize
      · exact ⟨"Capacity must be at least pagesize",
          by simp [mkRingBuffer, map_mirror, if_pos hlt]⟩
      · exact ⟨"Capacity must be a power of two",
          by simp [mkRingBuffer, map_mirror, if_neg hlt, hp2]⟩
  · intro s hs
    by_cases h1 : capacity * sizeofT < pagesize
    · rw [mkRingBuffer, map_mirror, if_pos h1] at hs
      exact absurd hs (by simp)
    · by_cases h2 : is_power_of_two (capacity * sizeofT) = true
      · have hle : pagesize ≤ capacity * sizeofT := Nat.le_of_not_lt h1
        obtain ⟨m, hm⟩ := is_power_of_two_spec h2
        refine ⟨hle, ⟨m, hm⟩, ?_⟩
        intro j hj
        rw [hj, hm]
        refine pow_dvd_pow 2 ?_
        have : (2:Nat) ^ j ≤ 2 ^ m := by rw [← hj, ← hm]; exact hle
        exact (Nat.pow_le_pow_iff_right (by norm_num)).mp this
      · have h2' : is_power_of_two (capacity * sizeofT) = false := by
          simpa using h2
        rw [mkRingBuffer, map_mirror, if_neg h1, h2'] at hs
        exact absurd hs (by simp)

/-- C7 witness: a one-byte request fails, a 4096-byte power-of-two
request succeeds and yields a page-aligned power-of-two byte size. -/
theorem construction_validation_witness :
    (∃ e, mkRingBuffer 4096 1 1 = Except.error e) ∧
    (4096 ≤ 4096 * 1 ∧ (∃ m, 4096 * 1 = 2 ^ m) ∧
      (∀ j, 4096 = 2 ^ j → 4096 ∣ 4096 * 1)) :=
  ⟨(construction_validation 4096 1 1).1 (Or.inl (by decide)),
   (construction_validation 4096 1 4096).2 (RingBuffer.init 4096) (by rfl)⟩

/-! ## Claim C8: clear resets the buffer -/

/-- C8: after `clear()` both position counters (and their cached
copies) are zero, a subsequent `available()` returns 0, a subsequent
`free_to_write()` returns the full capacity, and the rendezvous is
signalled with `notify_all`, waking every waiting thread so it
re-evaluates availability. -/
theorem clear_resets (s : RingBuffer) :
    s.clear.fst.read_pos = 0 ∧
    s.clear.fst.write_pos = 0 ∧
    s.clear.fst.read_pos_cached = 0 ∧
    s.clear.fst.write_pos_cached = 0 ∧
    (s.clear.fst.available 0).fst = 0 ∧
    (s.clear.fst.free_to_write 0).fst = s.capacity ∧
    s.clear.snd = Notify.all := by
  refine ⟨rfl, rfl, rfl, rfl, ?_, ?_, rfl⟩
  · simp [RingBuffer.clear, RingBuffer.available]
  · simp [RingBuffer.clear, RingBuffer.free_to_write]

/-! ## Claim C9: cached counts never over-report -/

/-- C9: in every state reachable by construction, `clear()`, queries and
valid `produce`/`consume` calls, the cached counts are lower bounds of
the true ones: `available_cached_` is at most the true occupancy
`write_pos - read_pos`, and `free_cached_` is at most the true free
space `capacity - (write_pos - read_pos)`; so the queries may understate
but never overstate what is safe to transfer. -/
theorem cached_counts_lower_bound (cap : Nat) (ops : List Op)
    (hW : cap < W) (hv : (RingBuffer.init cap).validTrace ops = true) :
    (reach cap ops).available_cached
        ≤ wsub (reach cap ops).write_pos (reach cap ops).read_pos ∧
    (reach cap ops).free_cached
        ≤ (reach cap ops).capacity
            - wsub (reach cap ops).write_pos (reach cap ops).read_pos := by
  have h := inv_reach cap ops hW hv
  have hW' : (reach cap ops).capacity < W := by
    rw [reach_capacity]; exact hW
  rw [inv_occupancy hW' h]
  exact ⟨h.ha, h.hf⟩

/-- C9 witness: the cached lower bounds on a concrete reachable state
with a stale available cache. -/
theorem cached_counts_lower_bound_witness :
    (reach 4 [Op.freeQ 1, Op.produce 1]).available_cached
        ≤ wsub (reach 4 [Op.freeQ 1, Op.produce 1]).write_pos
            (reach 4 [Op.freeQ 1, Op.produce 1]).read_pos ∧
    (reach 4 [Op.freeQ 1, Op.produce 1]).free_cached
        ≤ (reach 4 [Op.freeQ 1, Op.produce 1]).capacity
            - wsub (reach 4 [Op.freeQ 1, Op.produce 1]).write_pos
                (reach 4 [Op.freeQ 1, Op.produce 1]).read_pos :=
  cached_counts_lower_bound 4 [Op.freeQ 1, Op.produce 1] (by decide) (by decide)

end SoapyRB
